import Mathlib

/-!
Verification of the multi-agent consultation stack of the repository
(Capitán del Enterprise orchestrator, Puente del Enterprise capability host).

Python strings are modelled as lists of characters (`List Char`); Python
dictionaries as association lists; the external collaborators (the MCP
transport, the chat-completion endpoint and the specialist agents) as
explicit oracles passed in as function arguments.
-/

namespace EnterpriseMCP

/-- Converts a Lean string literal to the `List Char` text representation. -/
def cadena (s : String) : List Char := s.data

/-- Model of Python prefix testing, `str.startswith`. -/
def esPrefijo : List Char → List Char → Bool
  | [], _ => true
  | _ :: _, [] => false
  | a :: as, b :: bs => a == b && esPrefijo as bs

/-- Model of the Python substring operator, `pat in s`: some suffix of `s`
has `pat` as a prefix. -/
def contiene (pat : List Char) : List Char → Bool
  | [] => esPrefijo pat []
  | c :: rest => esPrefijo pat (c :: rest) || contiene pat rest

/-- Charwise model of Python `str.upper` on the alphabet the classifier
works over: the ASCII letters plus the accented Latin letters covered by the
accent table of the source. Every other character passes through unchanged. -/
def paresMayusculas : List (Char × Char) :=
  [('a', 'A'), ('b', 'B'), ('c', 'C'), ('d', 'D'), ('e', 'E'), ('f', 'F'),
   ('g', 'G'), ('h', 'H'), ('i', 'I'), ('j', 'J'), ('k', 'K'), ('l', 'L'),
   ('m', 'M'), ('n', 'N'), ('o', 'O'), ('p', 'P'), ('q', 'Q'), ('r', 'R'),
   ('s', 'S'), ('t', 'T'), ('u', 'U'), ('v', 'V'), ('w', 'W'), ('x', 'X'),
   ('y', 'Y'), ('z', 'Z'),
   ('á', 'Á'), ('é', 'É'), ('í', 'Í'), ('ó', 'Ó'), ('ú', 'Ú'),
   ('ä', 'Ä'), ('ë', 'Ë'), ('ï', 'Ï'), ('ö', 'Ö'), ('ü', 'Ü'),
   ('à', 'À'), ('è', 'È'), ('ì', 'Ì'), ('ò', 'Ò'), ('ù', 'Ù'),
   ('ñ', 'Ñ')]

/-- Uppercases one character (see `paresMayusculas`). -/
def mayuscula (c : Char) : Char := (paresMayusculas.lookup c).getD c

/-- The fixed accent table built with `str.maketrans` in the source
(`_quitar_acentos_simple`): each accented uppercase Latin letter maps to its
unaccented equivalent. -/
def tablaAcentos : List (Char × Char) :=
  [('Á', 'A'), ('É', 'E'), ('Í', 'I'), ('Ó', 'O'), ('Ú', 'U'),
   ('Ä', 'A'), ('Ë', 'E'), ('Ï', 'I'), ('Ö', 'O'), ('Ü', 'U'),
   ('À', 'A'), ('È', 'E'), ('Ì', 'I'), ('Ò', 'O'), ('Ù', 'U'),
   ('Ñ', 'N')]

/-- Translates one character through the accent table; characters outside the
table pass through unchanged (Python `str.translate` semantics). -/
def quitarAcentoChar (c : Char) : Char := (tablaAcentos.lookup c).getD c

/-- Source `_quitar_acentos_simple`: `s.translate(tabla)`. -/
def quitarAcentosSimple (s : List Char) : List Char := s.map quitarAcentoChar

/-- Model of `texto.upper()`. -/
def aMayusculas (s : List Char) : List Char := s.map mayuscula

/-- Source `_normalizar`: `_quitar_acentos_simple(texto.upper())`. -/
def normalizar (texto : List Char) : List Char := quitarAcentosSimple (aMayusculas texto)

/-- Source `_nivel_riesgo`: scan the normalized text for the risk markers in
fixed priority order; the first match decides the returned label. -/
def nivelRiesgo (texto : List Char) : List Char :=
  let t := normalizar texto
  if contiene (cadena "CRITICO") t || contiene (cadena "CRITICA") t then cadena "CRÍTICO"
  else if contiene (cadena "ALTO") t then cadena "ALTO"
  else if contiene (cadena "MEDIO") t then cadena "MEDIO"
  else if contiene (cadena "BAJO") t then cadena "BAJO"
  else cadena "NO ESPECIFICADO"

/-- Accumulator worker for `dividirLineas`. The accumulator holds the
characters of the current line in reverse. -/
def dividirLineasGo : List Char → List Char → List (List Char)
  | [], [] => []
  | [], acc => [acc.reverse]
  | '\r' :: '\n' :: rest, acc => acc.reverse :: dividirLineasGo rest []
  | '\r' :: rest, acc => acc.reverse :: dividirLineasGo rest []
  | '\n' :: rest, acc => acc.reverse :: dividirLineasGo rest []
  | c :: rest, acc => dividirLineasGo rest (c :: acc)

/-- Model of Python `str.splitlines` restricted to the terminators LF, CR and
CRLF; a trailing terminator produces no trailing empty line, and the empty
string yields no lines. -/
def dividirLineas (s : List Char) : List (List Char) := dividirLineasGo s []

/-- The whitespace characters removed by Python `str.strip()`. -/
def esEspacio (c : Char) : Bool :=
  c == ' ' || c == '\t' || c == '\n' || c == '\r' || c == '\x0b' || c == '\x0c'

/-- Model of Python `str.strip()`: drop whitespace from both ends. -/
def recortar (s : List Char) : List Char :=
  ((s.dropWhile esEspacio).reverse.dropWhile esEspacio).reverse

/-- The structured prefixes recognised by `_extraer_claves`. -/
def prefijosClave : List (List Char) :=
  [cadena "RIESGO:", cadena "RECOMENDACION:", cadena "JUSTIFICACION:",
   cadena "CONCLUSION:", cadena "ACCION:", cadena "ACCION "]

/-- A line counts as structured when its normalized form starts with one of
the structured prefixes (`_normalizar(l).startswith(...)` in the source). -/
def esLineaClave (l : List Char) : Bool :=
  prefijosClave.any fun p => esPrefijo p (normalizar l)

/-- The non-empty trimmed lines of a text, as computed by the comprehension
`[l.strip() for l in texto.splitlines() if l.strip()]` in the source. -/
def lineasNoVacias (texto : List Char) : List (List Char) :=
  ((dividirLineas texto).map recortar).filter fun l => !l.isEmpty

/-- Source `_extraer_claves`: prefer structured lines, else leading lines,
both capped at `maxLineas`; empty output for a text with no non-empty line. -/
def extraerClaves (texto : List Char) (maxLineas : Nat) : List (List Char) :=
  let lineas := lineasNoVacias texto
  if lineas = [] then []
  else
    let claves := lineas.filter esLineaClave
    if claves ≠ [] then claves.take maxLineas else lineas.take maxLineas

theorem lookup_none_of_keys {l : List (Char × Char)} {c : Char}
    (h : ∀ p ∈ l, c ≠ p.1) : l.lookup c = none := by
  induction l with
  | nil => rfl
  | cons p t ih =>
    obtain ⟨k, v⟩ := p
    have hne : (c == k) = false :=
      beq_eq_false_iff_ne.mpr (h (k, v) (List.mem_cons_self _ t))
    simp only [List.lookup, hne]
    exact ih fun q hq => h q (List.mem_cons_of_mem _ hq)

theorem mayuscula_id_of_not_mem {c : Char}
    (h : c ∉ paresMayusculas.map Prod.fst) : mayuscula c = c := by
  unfold mayuscula
  rw [lookup_none_of_keys]
  · rfl
  · intro p hp hc
    exact h (hc ▸ List.mem_map_of_mem Prod.fst hp)

theorem quitarAcentoChar_id_of_not_mem {c : Char}
    (h : c ∉ tablaAcentos.map Prod.fst) : quitarAcentoChar c = c := by
  unfold quitarAcentoChar
  rw [lookup_none_of_keys]
  · rfl
  · intro p hp hc
    exact h (hc ▸ List.mem_map_of_mem Prod.fst hp)

/-- Normalization acts characterwise; this is the per-character action. -/
def normalizarChar (c : Char) : Char := quitarAcentoChar (mayuscula c)

theorem normalizar_eq_map (s : List Char) : normalizar s = s.map normalizarChar := by
  simp only [normalizar, quitarAcentosSimple, aMayusculas, List.map_map]
  rfl

theorem normalizarChar_idem (c : Char) :
    normalizarChar (normalizarChar c) = normalizarChar c := by
  by_cases hc : c ∈ paresMayusculas.map Prod.fst ++ tablaAcentos.map Prod.fst
  · simp only [paresMayusculas, tablaAcentos, List.map_cons, List.map_nil,
      List.mem_append] at hc
    rcases hc with hc | hc <;> fin_cases hc <;> decide
  · have h1 : c ∉ paresMayusculas.map Prod.fst := fun h =>
      hc (List.mem_append_left _ h)
    have h2 : c ∉ tablaAcentos.map Prod.fst := fun h =>
      hc (List.mem_append_right _ h)
    have e1 : normalizarChar c = c := by
      rw [normalizarChar, mayuscula_id_of_not_mem h1, quitarAcentoChar_id_of_not_mem h2]
    rw [e1, e1]

theorem map_normalizarChar_idem (s : List Char) :
    s.map (fun c => normalizarChar (normalizarChar c)) = s.map normalizarChar := by
  induction s with
  | nil => rfl
  | cons c t ih => simp only [List.map_cons, normalizarChar_idem, ih]

/-- C8: `normalizar` is idempotent, maps each entry of the fixed accent table
to its unaccented equivalent, and the translation step passes every character
outside the table through unchanged. -/
theorem c8_normalizar_idempotente :
    (∀ s : List Char, normalizar (normalizar s) = normalizar s)
    ∧ (∀ p ∈ tablaAcentos, quitarAcentoChar p.1 = p.2)
    ∧ (∀ c : Char, c ∉ tablaAcentos.map Prod.fst → quitarAcentoChar c = c) := by
  refine ⟨fun s => ?_, by decide, fun c h => quitarAcentoChar_id_of_not_mem h⟩
  rw [normalizar_eq_map, normalizar_eq_map, List.map_map]
  have : normalizarChar ∘ normalizarChar = fun c => normalizarChar (normalizarChar c) := rfl
  rw [this, map_normalizarChar_idem]

/-- Witness for C8 at concrete inputs: the table maps Á to A and leaves the
exclamation mark unchanged. -/
theorem c8_normalizar_idempotente_testigo :
    quitarAcentoChar 'Á' = 'A' ∧ quitarAcentoChar '!' = '!' :=
  ⟨c8_normalizar_idempotente.2.1 ('Á', 'A') (by decide),
   c8_normalizar_idempotente.2.2 '!' (by decide)⟩

/-- C1 as frozen is refuted: a text whose normalization contains both ALTO
and BAJO but also CRITICA is classified CRÍTICO, not ALTO (HIGH). -/
theorem c1_contraejemplo :
    contiene (cadena "ALTO") (normalizar (cadena "situación crítica: riesgo alto y bajo")) = true
    ∧ contiene (cadena "BAJO") (normalizar (cadena "situación crítica: riesgo alto y bajo")) = true
    ∧ nivelRiesgo (cadena "situación crítica: riesgo alto y bajo") ≠ cadena "ALTO" := by
  decide

/-- C1 amended: `nivelRiesgo` returns exactly one of the five labels, decided
by substring tests on the normalized text in fixed priority order
(CRITICO/CRITICA, then ALTO, then MEDIO, then BAJO, else NO ESPECIFICADO); a
text containing both ALTO and BAJO but neither CRITICO nor CRITICA yields
ALTO; the two concrete examples hold. -/
theorem c1_nivel_riesgo :
    (∀ t : List Char, nivelRiesgo t = cadena "CRÍTICO" ∨ nivelRiesgo t = cadena "ALTO"
      ∨ nivelRiesgo t = cadena "MEDIO" ∨ nivelRiesgo t = cadena "BAJO"
      ∨ nivelRiesgo t = cadena "NO ESPECIFICADO")
    ∧ (∀ t : List Char,
        (contiene (cadena "CRITICO") (normalizar t) = true ∨
          contiene (cadena "CRITICA") (normalizar t) = true) →
        nivelRiesgo t = cadena "CRÍTICO")
    ∧ (∀ t : List Char,
        contiene (cadena "CRITICO") (normalizar t) = false →
        contiene (cadena "CRITICA") (normalizar t) = false →
        contiene (cadena "ALTO") (normalizar t) = true →
        nivelRiesgo t = cadena "ALTO")
    ∧ (∀ t : List Char,
        contiene (cadena "CRITICO") (normalizar t) = false →
        contiene (cadena "CRITICA") (normalizar t) = false →
        contiene (cadena "ALTO") (normalizar t) = false →
        contiene (cadena "MEDIO") (normalizar t) = true →
        nivelRiesgo t = cadena "MEDIO")
    ∧ (∀ t : List Char,
        contiene (cadena "CRITICO") (normalizar t) = false →
        contiene (cadena "CRITICA") (normalizar t) = false →
        contiene (cadena "ALTO") (normalizar t) = false →
        contiene (cadena "MEDIO") (normalizar t) = false →
        contiene (cadena "BAJO") (normalizar t) = true →
        nivelRiesgo t = cadena "BAJO")
    ∧ (∀ t : List Char,
        contiene (cadena "CRITICO") (normalizar t) = false →
        contiene (cadena "CRITICA") (normalizar t) = false →
        contiene (cadena "ALTO") (normalizar t) = false →
        contiene (cadena "MEDIO") (normalizar t) = false →
        contiene (cadena "BAJO") (normalizar t) = false →
        nivelRiesgo t = cadena "NO ESPECIFICADO")
    ∧ (∀ t : List Char,
        contiene (cadena "CRITICO") (normalizar t) = false →
        contiene (cadena "CRITICA") (normalizar t) = false →
        contiene (cadena "ALTO") (normalizar t) = true →
        contiene (cadena "BAJO") (normalizar t) = true →
        nivelRiesgo t = cadena "ALTO")
    ∧ nivelRiesgo (cadena "todo en orden, riesgo bajo") = cadena "BAJO"
    ∧ nivelRiesgo (cadena "") = cadena "NO ESPECIFICADO" := by
  refine ⟨?_, ?_, ?_, ?_, ?_, ?_, ?_, by decide, by decide⟩
  · intro t
    unfold nivelRiesgo
    cases hco : contiene (cadena "CRITICO") (normalizar t) <;>
      cases hca : contiene (cadena "CRITICA") (normalizar t) <;>
      cases ha : contiene (cadena "ALTO") (normalizar t) <;>
      cases hm : contiene (cadena "MEDIO") (normalizar t) <;>
      cases hb : contiene (cadena "BAJO") (normalizar t) <;>
      simp [hco, hca, ha, hm, hb]
  · intro t h1
    rcases h1 with h | h <;> simp [nivelRiesgo, h]
  · intro t h1 h2 h3
    simp [nivelRiesgo, h1, h2, h3]
  · intro t h1 h2 h3 h4
    simp [nivelRiesgo, h1, h2, h3, h4]
  · intro t h1 h2 h3 h4 h5
    simp [nivelRiesgo, h1, h2, h3, h4, h5]
  · intro t h1 h2 h3 h4 h5
    simp [nivelRiesgo, h1, h2, h3, h4, h5]
  · intro t h1 h2 h3 _
    simp [nivelRiesgo, h1, h2, h3]

/-- Witness for C1 at concrete inputs, discharging the priority hypotheses. -/
theorem c1_nivel_riesgo_testigo :
    nivelRiesgo (cadena "riesgo alto y bajo") = cadena "ALTO" :=
  c1_nivel_riesgo.2.2.2.2.2.2.1 (cadena "riesgo alto y bajo")
    (by decide) (by decide) (by decide) (by decide)

/-- C3: `extraerClaves` returns the structured lines (in original order,
capped) when any exist, the leading non-empty trimmed lines (capped)
otherwise, and the empty sequence when the text has no non-empty line; its
length never exceeds the cap. -/
theorem c3_extraer_claves (texto : List Char) (m : Nat) :
    (lineasNoVacias texto = [] → extraerClaves texto m = [])
    ∧ ((lineasNoVacias texto).filter esLineaClave ≠ [] →
        extraerClaves texto m = ((lineasNoVacias texto).filter esLineaClave).take m)
    ∧ ((lineasNoVacias texto).filter esLineaClave = [] →
        extraerClaves texto m = (lineasNoVacias texto).take m)
    ∧ (extraerClaves texto m).length ≤ m := by
  refine ⟨fun h => ?_, fun h => ?_, fun h => ?_, ?_⟩
  · simp [extraerClaves, h]
  · have hne : ¬ lineasNoVacias texto = [] := by
      intro h0
      exact h (by simp [h0])
    simp [extraerClaves, hne, h]
  · by_cases h0 : lineasNoVacias texto = []
    · simp [extraerClaves, h0]
    · simp [extraerClaves, h0, h]
  · unfold extraerClaves
    dsimp only
    split
    · simp
    · split
      · rw [List.length_take]
        exact min_le_left _ _
      · rw [List.length_take]
        exact min_le_left _ _

/-- Witness for C3 at a concrete input with one structured line. -/
theorem c3_extraer_claves_testigo :
    extraerClaves (cadena "nota previa\nRIESGO: ALTO\nfin") 4 = [cadena "RIESGO: ALTO"] := by
  have h := (c3_extraer_claves (cadena "nota previa\nRIESGO: ALTO\nfin") 4).2.1 (by decide)
  rw [h]
  decide

/-- A tool-call result as the client sees it: the list of content item texts
(str of each item text attribute), plus the text of the str() representation
of the whole result object, used when the content list is empty. -/
structure ResultadoTool where
  content : List (List Char)
  reprTexto : List Char

/-- The reply text assembled by the client from one tool result:
newline-join the non-empty content item texts and strip, or fall back to the
str() form when there is no content. -/
def textoDeResultado (r : ResultadoTool) : List Char :=
  if !r.content.isEmpty then
    recortar (List.intercalate (cadena "\n") (r.content.filter fun p => !p.isEmpty))
  else r.reprTexto

/-- One successful consultation entry of the report (respuestas). -/
structure Respuesta where
  especialista : List Char
  riesgoDetectado : List Char
  claves : List (List Char)
  respuesta : List Char
deriving DecidableEq

/-- One failure entry of the report (errores). -/
structure ErrorConsulta where
  especialista : List Char
  error : List Char
deriving DecidableEq

/-- The consultation report payload (herramientas disponibles, respuestas,
errores) built by consultar puente enterprise mcp. -/
structure Informe where
  herramientasDisponibles : List (List Char)
  respuestas : List Respuesta
  errores : List ErrorConsulta
deriving DecidableEq

/-- Resolution of the invocation set in the source: a truthy especialistas
list is filtered to the discovered names, keeping the order in which the
caller listed them; when that filter result is empty the full discovered
list is used; a missing or empty especialistas consults everything. -/
def resolverAConsultar (herramientas : List (List Char))
    (especialistas : Option (List (List Char))) : List (List Char) :=
  match especialistas with
  | some es =>
    if es = [] then herramientas
    else
      let solicitadas := es.filter fun e => herramientas.contains e
      if solicitadas = [] then herramientas else solicitadas
  | none => herramientas

/-- One iteration of the consultation loop: a successful call appends a
Respuesta built by the classifier; a raised exception appends an
ErrorConsulta; either way the loop continues with the remaining names. -/
def pasoConsulta (llamar : List Char → List Char → Except (List Char) ResultadoTool)
    (task : List Char) (acc : List Respuesta × List ErrorConsulta)
    (toolName : List Char) : List Respuesta × List ErrorConsulta :=
  match llamar toolName task with
  | .ok r =>
    let texto := textoDeResultado r
    (acc.1 ++ [⟨toolName, nivelRiesgo texto, extraerClaves texto 4, texto⟩], acc.2)
  | .error e => (acc.1, acc.2 ++ [⟨toolName, e⟩])

/-- Source consultar puente enterprise mcp after a successful
connect/initialize and discovery, with the MCP session abstracted into the
`llamar` oracle (name and task in, result or raised error out): resolve the
invocation set, consult each capability sequentially, assemble the report. -/
def consultarPuente (llamar : List Char → List Char → Except (List Char) ResultadoTool)
    (herramientas : List (List Char)) (task : List Char)
    (especialistas : Option (List (List Char))) : Informe :=
  let aConsultar := resolverAConsultar herramientas especialistas
  let rc := aConsultar.foldl (pasoConsulta llamar task) ([], [])
  ⟨herramientas, rc.1, rc.2⟩

/-- Whether the oracle call for one capability succeeds. -/
def esExito (llamar : List Char → List Char → Except (List Char) ResultadoTool)
    (task : List Char) (toolName : List Char) : Bool :=
  match llamar toolName task with
  | .ok _ => true
  | .error _ => false

theorem pasoConsulta_foldl (llamar : List Char → List Char → Except (List Char) ResultadoTool)
    (task : List Char) (l : List (List Char)) (acc : List Respuesta × List ErrorConsulta) :
    (l.foldl (pasoConsulta llamar task) acc).1.map (·.especialista)
        = acc.1.map (·.especialista) ++ l.filter (esExito llamar task)
    ∧ (l.foldl (pasoConsulta llamar task) acc).2.map (·.especialista)
        = acc.2.map (·.especialista) ++ l.filter (fun n => !esExito llamar task n)
    ∧ (l.foldl (pasoConsulta llamar task) acc).1.length
        + (l.foldl (pasoConsulta llamar task) acc).2.length
        = acc.1.length + acc.2.length + l.length := by
  induction l generalizing acc with
  | nil => simp
  | cons n t ih =>
    simp only [List.foldl_cons, List.filter_cons]
    cases h : llamar n task with
    | ok r =>
      have hex : esExito llamar task n = true := by simp [esExito, h]
      have hstep : pasoConsulta llamar task acc n =
          (acc.1 ++ [⟨n, nivelRiesgo (textoDeResultado r),
            extraerClaves (textoDeResultado r) 4, textoDeResultado r⟩], acc.2) := by
        simp [pasoConsulta, h]
      rw [hstep]
      obtain ⟨i1, i2, i3⟩ := ih _
      refine ⟨?_, ?_, ?_⟩
      · rw [i1]
        simp [hex]
      · rw [i2]
        simp [hex]
      · rw [i3]
        simp
        omega
    | error e =>
      have hex : esExito llamar task n = false := by simp [esExito, h]
      have hstep : pasoConsulta llamar task acc n = (acc.1, acc.2 ++ [⟨n, e⟩]) := by
        simp [pasoConsulta, h]
      rw [hstep]
      obtain ⟨i1, i2, i3⟩ := ih _
      refine ⟨?_, ?_, ?_⟩
      · rw [i1]
        simp [hex]
      · rw [i2]
        simp [hex]
      · rw [i3]
        simp
        omega

/-- C2: over the attempted capabilities, respuestas and errores partition the
attempts (their names are exactly the successes, resp. the failures, of the
attempted list in attempt order, and the lengths add up to the number of
attempts); a failure never removes later capabilities from the report. -/
theorem c2_informe_particion
    (llamar : List Char → List Char → Except (List Char) ResultadoTool)
    (herramientas : List (List Char)) (task : List Char)
    (especialistas : Option (List (List Char))) :
    (consultarPuente llamar herramientas task especialistas).respuestas.length
        + (consultarPuente llamar herramientas task especialistas).errores.length
        = (resolverAConsultar herramientas especialistas).length
    ∧ (consultarPuente llamar herramientas task especialistas).respuestas.map (·.especialista)
        = (resolverAConsultar herramientas especialistas).filter (esExito llamar task)
    ∧ (consultarPuente llamar herramientas task especialistas).errores.map (·.especialista)
        = (resolverAConsultar herramientas especialistas).filter
            (fun n => !esExito llamar task n) := by
  obtain ⟨i1, i2, i3⟩ :=
    pasoConsulta_foldl llamar task (resolverAConsultar herramientas especialistas) ([], [])
  refine ⟨?_, ?_, ?_⟩
  · simpa [consultarPuente] using i3
  · simpa [consultarPuente] using i1
  · simpa [consultarPuente] using i2

/-- C5 as frozen is refuted: with discovered capabilities [A, B] and wanted
list [B, A], the client consults B before A — the wanted order, not the
discovery order. -/
theorem c5_contraejemplo :
    (consultarPuente (fun _ _ => Except.ok ⟨[cadena "ok"], cadena ""⟩)
        [cadena "A", cadena "B"] (cadena "t")
        (some [cadena "B", cadena "A"])).respuestas.map (·.especialista)
      ≠ [cadena "A", cadena "B"].filter
          (fun n => [cadena "B", cadena "A"].contains n) := by
  decide

/-- C5 amended: with a non-empty wanted list whose intersection with the
discovered names is non-empty, the invoked capabilities are exactly the
wanted names that were discovered, kept in the order the caller listed them
(not in discovery order); an empty intersection falls back to the full
discovered list, as does an absent wanted list; under an all-success oracle
the respuestas follow that resolved order. -/
theorem c5_conjunto_invocado (herramientas : List (List Char)) (es : List (List Char)) :
    (es ≠ [] → es.filter (fun e => herramientas.contains e) ≠ [] →
      resolverAConsultar herramientas (some es)
        = es.filter fun e => herramientas.contains e)
    ∧ (es ≠ [] → es.filter (fun e => herramientas.contains e) = [] →
      resolverAConsultar herramientas (some es) = herramientas)
    ∧ resolverAConsultar herramientas none = herramientas
    ∧ (es ≠ [] → es.filter (fun e => herramientas.contains e) ≠ [] →
      ∀ n, n ∈ resolverAConsultar herramientas (some es) ↔ n ∈ es ∧ n ∈ herramientas)
    ∧ (∀ llamar task, (∀ n, esExito llamar task n = true) →
      (consultarPuente llamar herramientas task (some es)).respuestas.map (·.especialista)
        = resolverAConsultar herramientas (some es)) := by
  have resolver_eq : es ≠ [] → es.filter (fun e => herramientas.contains e) ≠ [] →
      resolverAConsultar herramientas (some es)
        = es.filter fun e => herramientas.contains e := by
    intro h1 h2
    unfold resolverAConsultar
    dsimp only
    rw [if_neg h1, if_neg h2]
  refine ⟨resolver_eq, fun h1 h2 => ?_, rfl, fun h1 h2 n => ?_, fun llamar task hok => ?_⟩
  · unfold resolverAConsultar
    dsimp only
    rw [if_neg h1, if_pos h2]
  · rw [resolver_eq h1 h2]
    simp [List.mem_filter, List.elem_iff]
  · obtain ⟨i1, _, _⟩ :=
      pasoConsulta_foldl llamar task (resolverAConsultar herramientas (some es)) ([], [])
    have : (resolverAConsultar herramientas (some es)).filter (esExito llamar task)
        = resolverAConsultar herramientas (some es) :=
      List.filter_eq_self.mpr fun a _ => hok a
    simpa [consultarPuente, this] using i1

/-- Witness for C5 amended at a concrete input: wanted [B, A] against
discovered [A, B] resolves to [B, A]. -/
theorem c5_conjunto_invocado_testigo :
    resolverAConsultar [cadena "A", cadena "B"] (some [cadena "B", cadena "A"])
      = [cadena "B", cadena "A"] := by
  have h := (c5_conjunto_invocado [cadena "A", cadena "B"]
    [cadena "B", cadena "A"]).1 (by decide) (by decide)
  rw [h]
  decide

/-- Modelled from the spec: the decision precedence contract of the
orchestrator is stated in the system prompt as an instruction the external
chat collaborator must follow; no executable decision function exists in the
repository, so the rule is modelled from the contract text — any CRÍTICO or
ALTO risk level denies, otherwise any MEDIO approves with mitigations,
otherwise the run approves. -/
def decisionFinal (niveles : List (List Char)) : List Char :=
  if niveles.any fun n => n == cadena "CRÍTICO" || n == cadena "ALTO" then
    cadena "NO AUTORIZAR"
  else if niveles.any fun n => n == cadena "MEDIO" then
    cadena "AUTORIZAR CON MITIGACIONES"
  else cadena "AUTORIZAR"

/-- C6: the decision follows the precedence rule over the risk levels of a
report: any CRÍTICO or ALTO level yields NO AUTORIZAR; otherwise any MEDIO
yields AUTORIZAR CON MITIGACIONES; otherwise AUTORIZAR. -/
theorem c6_decision_precedencia (niveles : List (List Char)) :
    ((cadena "CRÍTICO" ∈ niveles ∨ cadena "ALTO" ∈ niveles) →
      decisionFinal niveles = cadena "NO AUTORIZAR")
    ∧ (cadena "CRÍTICO" ∉ niveles → cadena "ALTO" ∉ niveles →
      cadena "MEDIO" ∈ niveles →
      decisionFinal niveles = cadena "AUTORIZAR CON MITIGACIONES")
    ∧ (cadena "CRÍTICO" ∉ niveles → cadena "ALTO" ∉ niveles →
      cadena "MEDIO" ∉ niveles →
      decisionFinal niveles = cadena "AUTORIZAR") := by
  refine ⟨fun h => ?_, fun h1 h2 h3 => ?_, fun h1 h2 h3 => ?_⟩
  · have ha : (niveles.any fun n => n == cadena "CRÍTICO" || n == cadena "ALTO") = true := by
      rcases h with h | h
      · exact List.any_eq_true.mpr ⟨_, h, by simp⟩
      · exact List.any_eq_true.mpr ⟨_, h, by simp⟩
    simp [decisionFinal, ha]
  · have ha : (niveles.any fun n => n == cadena "CRÍTICO" || n == cadena "ALTO") = false := by
      simp only [List.any_eq_false]
      intro n hn
      simp only [Bool.or_eq_true, beq_iff_eq, not_or]
      exact ⟨fun e => h1 (e ▸ hn), fun e => h2 (e ▸ hn)⟩
    have hm : (niveles.any fun n => n == cadena "MEDIO") = true :=
      List.any_eq_true.mpr ⟨_, h3, by simp⟩
    simp [decisionFinal, ha, hm]
  · have ha : (niveles.any fun n => n == cadena "CRÍTICO" || n == cadena "ALTO") = false := by
      simp only [List.any_eq_false]
      intro n hn
      simp only [Bool.or_eq_true, beq_iff_eq, not_or]
      exact ⟨fun e => h1 (e ▸ hn), fun e => h2 (e ▸ hn)⟩
    have hm : (niveles.any fun n => n == cadena "MEDIO") = false := by
      simp only [List.any_eq_false]
      intro n hn
      simp only [beq_iff_eq]
      exact fun e => h3 (e ▸ hn)
    simp [decisionFinal, ha, hm]

/-- Witness for C6 at the concrete level sets of the spec: [ALTO, MEDIO]
denies, [MEDIO, BAJO] approves with mitigations, [BAJO, NO ESPECIFICADO]
approves, and the empty report approves. -/
theorem c6_decision_precedencia_testigo :
    decisionFinal [cadena "ALTO", cadena "MEDIO"] = cadena "NO AUTORIZAR"
    ∧ decisionFinal [cadena "MEDIO", cadena "BAJO"] = cadena "AUTORIZAR CON MITIGACIONES"
    ∧ decisionFinal [cadena "BAJO", cadena "NO ESPECIFICADO"] = cadena "AUTORIZAR"
    ∧ decisionFinal [] = cadena "AUTORIZAR" :=
  ⟨(c6_decision_precedencia _).1 (Or.inr (by decide)),
   (c6_decision_precedencia _).2.1 (by decide) (by decide) (by decide),
   (c6_decision_precedencia _).2.2 (by decide) (by decide) (by decide),
   (c6_decision_precedencia _).2.2 (by decide) (by decide) (by decide)⟩

/-- Source ejecutar herramienta of the capability host: the registry maps
each specialist name to its bound collaborator (modelled as a function from
task text to reply text); an unknown name produces one text content item
with the sentinel message; a known name runs the collaborator on the task
taken from the arguments dictionary (empty string when the dictionary is
absent or has no task key) and wraps its output as one text content item. -/
def ejecutarHerramienta (agentes : List (List Char × (List Char → List Char)))
    (toolName : List Char) (arguments : Option (List (List Char × List Char))) :
    List (List Char) :=
  match agentes.lookup toolName with
  | none => [cadena "Herramienta desconocida: " ++ toolName]
  | some agente =>
    let task := (match arguments with
      | none => none
      | some d => d.lookup (cadena "task")).getD (cadena "")
    [agente task]

/-- C7: a call with a name absent from the registry returns normally, with a
single text content whose text is the sentinel "Herramienta desconocida:"
followed by the name — a data-level signal, not a raised error. -/
theorem c7_herramienta_desconocida (agentes : List (List Char × (List Char → List Char)))
    (toolName : List Char) (arguments : Option (List (List Char × List Char)))
    (h : agentes.lookup toolName = none) :
    ejecutarHerramienta agentes toolName arguments
      = [cadena "Herramienta desconocida: " ++ toolName] := by
  simp [ejecutarHerramienta, h]

/-- Witness for C7 at a concrete registry and name. -/
theorem c7_herramienta_desconocida_testigo :
    ejecutarHerramienta [(cadena "Oficial de Ciencias - Enterprise", fun t => t)]
        (cadena "X") none
      = [cadena "Herramienta desconocida: X"] := by
  rw [c7_herramienta_desconocida
    [(cadena "Oficial de Ciencias - Enterprise", fun t => t)] (cadena "X") none rfl]
  decide

/-- C10: a call with a known name whose arguments are absent or lack the
task key does not fail: the bound collaborator runs on the empty string and
its output is returned as the single text content item. -/
theorem c10_task_ausente (agentes : List (List Char × (List Char → List Char)))
    (toolName : List Char) (arguments : Option (List (List Char × List Char)))
    (agente : List Char → List Char)
    (hf : agentes.lookup toolName = some agente)
    (h : arguments = none
      ∨ ∃ d, arguments = some d ∧ d.lookup (cadena "task") = none) :
    ejecutarHerramienta agentes toolName arguments = [agente (cadena "")] := by
  rcases h with h | ⟨d, hd, hl⟩
  · subst h
    simp [ejecutarHerramienta, hf]
  · subst hd
    simp [ejecutarHerramienta, hf, hl]

/-- Witness for C10 at a concrete registry, with an argument dictionary
lacking the task key. -/
theorem c10_task_ausente_testigo :
    ejecutarHerramienta [(cadena "Jefe de Seguridad - Enterprise", fun t => cadena "eco: " ++ t)]
        (cadena "Jefe de Seguridad - Enterprise") (some [(cadena "otra", cadena "x")])
      = [cadena "eco: "] := by
  rw [c10_task_ausente
    [(cadena "Jefe de Seguridad - Enterprise", fun t => cadena "eco: " ++ t)]
    (cadena "Jefe de Seguridad - Enterprise") (some [(cadena "otra", cadena "x")])
    (fun t => cadena "eco: " ++ t) rfl
    (Or.inr ⟨[(cadena "otra", cadena "x")], rfl, rfl⟩)]
  decide

/-- Model of Python str.strip applied with the BOM character as argument:
drop U+FEFF from both ends of the value. -/
def recortarBOM (s : List Char) : List Char :=
  ((s.dropWhile fun c => c == '﻿').reverse.dropWhile fun c => c == '﻿').reverse

/-- Splits a line at the first equals sign, line.split with maxsplit one:
the first component collects the characters before the first equals sign,
the second everything after it. -/
def partirEnIgual : List Char → List Char × List Char
  | [] => ([], [])
  | '=' :: rest => ([], rest)
  | c :: rest =>
    let p := partirEnIgual rest
    (c :: p.1, p.2)

/-- Whether the stripped value is wrapped in matching double or single
quotes, as tested by the source before removing them. -/
def entreComillas (value : List Char) : Bool :=
  (value.head? == some '"' && value.getLast? == some '"')
    || (value.head? == some '\x27' && value.getLast? == some '\x27')

/-- Source cargar env, one raw line against the current environment
(modelled as an association list): skip blank lines, comment lines and lines
without an equals sign; skip empty keys and keys already defined; strip
matching surrounding quotes from the value; otherwise define the variable. -/
def procesarLinea (entorno : List (List Char × List Char)) (rawLine : List Char) :
    List (List Char × List Char) :=
  let line := recortar rawLine
  if line = [] then entorno
  else if esPrefijo (cadena "#") line then entorno
  else if !contiene (cadena "=") line then entorno
  else
    let kv := partirEnIgual line
    let key := recortar kv.1
    let value := recortarBOM (recortar kv.2)
    if key = [] then entorno
    else if (entorno.lookup key).isSome then entorno
    else
      let value := if entreComillas value then (value.drop 1).dropLast else value
      entorno ++ [(key, value)]

/-- Source cargar env over the lines of the configuration file. -/
def cargarEnv (entorno : List (List Char × List Char))
    (lineas : List (List Char)) : List (List Char × List Char) :=
  lineas.foldl procesarLinea entorno

theorem procesarLinea_preserva (entorno : List (List Char × List Char))
    (rawLine : List Char) (clave : List Char)
    (h : ((entorno.lookup clave).isSome : Prop)) :
    (procesarLinea entorno rawLine).lookup clave = entorno.lookup clave := by
  unfold procesarLinea
  dsimp only
  repeat' split
  any_goals rfl
  all_goals
    rw [List.lookup_append]
    cases he : entorno.lookup clave with
    | none =>
      rw [he] at h
      simp at h
    | some v => simp [he, Option.or]

/-- C9: loading the KEY=VALUE file never changes a variable already defined
in the environment; blank lines, comment lines and lines without an equals
sign are skipped; matching surrounding double or single quotes are removed
from the value of a newly defined key. -/
theorem c9_cargar_env (entorno : List (List Char × List Char))
    (lineas : List (List Char)) (clave : List Char) :
    (((entorno.lookup clave).isSome : Prop) →
      (cargarEnv entorno lineas).lookup clave = entorno.lookup clave)
    ∧ (∀ e linea, recortar linea = [] ∨ esPrefijo (cadena "#") (recortar linea) = true
        ∨ contiene (cadena "=") (recortar linea) = false →
      procesarLinea e linea = e)
    ∧ (∀ e, e.lookup (cadena "CLAVE") = none →
      procesarLinea e (cadena "CLAVE=\"hola mundo\"") = e ++ [(cadena "CLAVE", cadena "hola mundo")])
    ∧ (∀ e, e.lookup (cadena "CLAVE") = none →
      procesarLinea e (cadena "CLAVE=\x27hola\x27") = e ++ [(cadena "CLAVE", cadena "hola")]) := by
  refine ⟨?_, fun e linea hskip => ?_, fun e he => ?_, fun e he => ?_⟩
  · induction lineas generalizing entorno with
    | nil => intro h; rfl
    | cons l t ih =>
      intro h
      have h1 := procesarLinea_preserva entorno l clave h
      have h2 : ((procesarLinea entorno l).lookup clave).isSome := by
        rw [h1]; exact h
      calc (cargarEnv entorno (l :: t)).lookup clave
          = (cargarEnv (procesarLinea entorno l) t).lookup clave := rfl
        _ = (procesarLinea entorno l).lookup clave := ih _ h2
        _ = entorno.lookup clave := h1
  · rcases hskip with h | h | h <;> simp [procesarLinea, h]
  · simp [procesarLinea, recortar, contiene, esPrefijo, esEspacio, partirEnIgual,
      recortarBOM, entreComillas, cadena, he]
    intro x hx
    have h2 := List.lookup_eq_none_iff.mp he (cadena "CLAVE", x) hx
    simp [cadena] at h2
  · simp [procesarLinea, recortar, contiene, esPrefijo, esEspacio, partirEnIgual,
      recortarBOM, entreComillas, cadena, he]
    intro x hx
    have h2 := List.lookup_eq_none_iff.mp he (cadena "CLAVE", x) hx
    simp [cadena] at h2

/-- Witness for C9 at a concrete environment and file: the already-defined
key keeps its value, the comment line is skipped, and the quoted value of
the fresh key is unquoted. -/
theorem c9_cargar_env_testigo :
    (cargarEnv [(cadena "A", cadena "1")]
        [cadena "# comentario", cadena "A=2"]).lookup (cadena "A")
      = some (cadena "1")
    ∧ procesarLinea [(cadena "A", cadena "1")] (cadena "CLAVE=\"hola mundo\"")
      = [(cadena "A", cadena "1"), (cadena "CLAVE", cadena "hola mundo")] := by
  constructor
  · have h := (c9_cargar_env [(cadena "A", cadena "1")]
      [cadena "# comentario", cadena "A=2"] (cadena "A")).1 (by decide)
    rw [h]
    decide
  · have h := (c9_cargar_env [(cadena "A", cadena "1")] [] (cadena "A")).2.2.1
      [(cadena "A", cadena "1")] (by decide)
    rw [h]
    rfl

/-- The especialistas argument of a requested tool call as json.loads can
deliver it: a list of values or a single scalar (both coerced to strings by
the source before use). -/
inductive ArgEspecialistas where
  | lista (xs : List (List Char))
  | escalar (x : List Char)
deriving DecidableEq

/-- The parsed arguments of a requested tool call: the optional task value
and the optional especialistas value, as read with args.get. -/
structure ArgsTool where
  task : Option (List Char)
  especialistas : Option ArgEspecialistas
deriving DecidableEq

/-- One tool call of the first-turn model response: optional id, optional
function name, and the parse of its raw JSON arguments, where `none` models
a json.loads failure (the source then substitutes a dictionary holding the
scenario as task). -/
structure LlamadaTool where
  id : Option (List Char)
  nombre : Option (List Char)
  argumentos : Option ArgsTool
deriving DecidableEq

/-- One consultation request as issued to consultar puente enterprise mcp by
the orchestrator: the task string and the optional especialistas list. -/
structure InvocacionConsulta where
  task : List Char
  especialistas : Option (List (List Char))
deriving DecidableEq

/-- One chat message appended after the first turn: role, content (which the
chat API allows to be null) and the optional tool call id. -/
structure Mensaje where
  rol : List Char
  contenido : Option (List Char)
  toolCallId : Option (List Char)
deriving DecidableEq

/-- The consultation request derived from one requested tool call when its
name matches the declared tool, and `none` when it differs: a failed
argument parse falls back to the scenario as task; an absent or empty task
value is replaced by the scenario; the especialistas value is coerced to an
optional list of strings (a scalar becomes a one-element list). -/
def invocacionDe (escenario : List Char) (llamada : LlamadaTool) :
    Option InvocacionConsulta :=
  if llamada.nombre ≠ some (cadena "consultar_puente_enterprise_mcp") then none
  else some (match llamada.argumentos with
    | none => ⟨escenario, none⟩
    | some args =>
      ⟨(match args.task with
        | none => escenario
        | some t => if t = [] then escenario else t),
       (match args.especialistas with
        | none => none
        | some (.lista xs) => some xs
        | some (.escalar x) => some [x])⟩)

/-- The error payload the orchestrator answers for an unsupported tool name,
as json.dumps renders it; a missing name prints as None. -/
def resultadoNoSoportado (nombre : Option (List Char)) : List Char :=
  cadena "\x7b\"error\": \"Tool no soportada: " ++ nombre.getD (cadena "None")
    ++ cadena "\"\x7d"

/-- Source run capitan between the two chat turns, with the consultation
abstracted into the `consultar` oracle: given the scenario, the first-turn
content and tool calls, produce the messages appended before the second turn
and the list of consultations performed. With no tool call the consult is
forced on the scenario and injected with the synthetic id "forced";
otherwise each call is answered in order, consulting only for the declared
tool name and answering an error payload for any other name. -/
def procesarPrimerTurno (consultar : InvocacionConsulta → List Char)
    (escenario : List Char) (contenido1 : Option (List Char))
    (toolCalls : List LlamadaTool) : List Mensaje × List InvocacionConsulta :=
  if toolCalls = [] then
    ([⟨cadena "assistant", some (contenido1.getD (cadena "")), none⟩,
      ⟨cadena "tool", some (consultar ⟨escenario, none⟩), some (cadena "forced")⟩],
     [⟨escenario, none⟩])
  else
    (⟨cadena "assistant", contenido1, none⟩ ::
      toolCalls.map (fun llamada =>
        ⟨cadena "tool",
         some (match invocacionDe escenario llamada with
           | none => resultadoNoSoportado llamada.nombre
           | some inv => consultar inv),
         some (match llamada.id with
           | none => cadena "unknown"
           | some i => if i = [] then cadena "unknown" else i)⟩),
     toolCalls.filterMap (invocacionDe escenario))

theorem invocacionDe_isSome (escenario : List Char) (llamada : LlamadaTool) :
    (invocacionDe escenario llamada).isSome
      = (llamada.nombre == some (cadena "consultar_puente_enterprise_mcp")) := by
  unfold invocacionDe
  split
  · rename_i h
    simp [h]
  · rename_i h
    rw [not_not] at h
    simp [h]

theorem length_filterMap_invocacionDe (escenario : List Char)
    (toolCalls : List LlamadaTool) :
    (toolCalls.filterMap (invocacionDe escenario)).length
      = (toolCalls.filter fun l =>
          l.nombre == some (cadena "consultar_puente_enterprise_mcp")).length := by
  induction toolCalls with
  | nil => rfl
  | cons l t ih =>
    rw [List.filterMap_cons, List.filter_cons]
    cases hinv : invocacionDe escenario l with
    | none =>
      have : (l.nombre == some (cadena "consultar_puente_enterprise_mcp")) = false := by
        rw [← invocacionDe_isSome escenario l, hinv]
        rfl
      simp [this, ih]
    | some inv =>
      have : (l.nombre == some (cadena "consultar_puente_enterprise_mcp")) = true := by
        rw [← invocacionDe_isSome escenario l, hinv]
        rfl
      simp [this, ih]

/-- C4 as frozen is refuted: a first-turn response that requests one tool
call with an unsupported name leads to zero consult invocations before the
second turn, not exactly one. -/
theorem c4_contraejemplo :
    ((procesarPrimerTurno (fun _ => cadena "informe") (cadena "esc") none
        [⟨some (cadena "1"), some (cadena "otra_tool"),
          some ⟨some (cadena "t"), none⟩⟩]).2).length ≠ 1 := by
  decide

/-- C4 amended: when the first response has no tool call, the orchestrator
performs exactly one consult, with the original scenario as task and no
especialistas filter, and injects its result as a synthetic tool message
with id "forced"; when the first response has tool calls, the number of
consults equals the number of requested calls whose name is the declared
tool (zero consults for a response whose calls all carry other names). -/
theorem c4_consulta_forzada (consultar : InvocacionConsulta → List Char)
    (escenario : List Char) (contenido1 : Option (List Char))
    (toolCalls : List LlamadaTool) :
    (toolCalls = [] →
      (procesarPrimerTurno consultar escenario contenido1 toolCalls).2
        = [⟨escenario, none⟩]
      ∧ (procesarPrimerTurno consultar escenario contenido1 toolCalls).1
        = [⟨cadena "assistant", some (contenido1.getD (cadena "")), none⟩,
           ⟨cadena "tool", some (consultar ⟨escenario, none⟩), some (cadena "forced")⟩])
    ∧ (procesarPrimerTurno consultar escenario contenido1 toolCalls).2.length
        = (if toolCalls = [] then 1
           else (toolCalls.filter fun l =>
             l.nombre == some (cadena "consultar_puente_enterprise_mcp")).length)
    ∧ (∀ inv ∈ (procesarPrimerTurno consultar escenario contenido1 toolCalls).2,
        toolCalls = [] ∨ ∃ l ∈ toolCalls, invocacionDe escenario l = some inv) := by
  refine ⟨fun h => ?_, ?_, fun inv hinv => ?_⟩
  · subst h
    exact ⟨rfl, rfl⟩
  · by_cases h : toolCalls = []
    · subst h
      rfl
    · rw [if_neg h]
      unfold procesarPrimerTurno
      rw [if_neg h]
      exact length_filterMap_invocacionDe escenario toolCalls
  · by_cases h : toolCalls = []
    · exact Or.inl h
    · right
      unfold procesarPrimerTurno at hinv
      rw [if_neg h] at hinv
      obtain ⟨l, hl, he⟩ := List.mem_filterMap.mp hinv
      exact ⟨l, hl, he⟩

/-- Witness for C4 amended on the no-tool-call branch: exactly one forced
consultation with the scenario as task. -/
theorem c4_consulta_forzada_testigo :
    (procesarPrimerTurno (fun _ => cadena "informe") (cadena "esc") none []).2
      = [⟨cadena "esc", none⟩] :=
  ((c4_consulta_forzada (fun _ => cadena "informe") (cadena "esc") none []).1 rfl).1

end EnterpriseMCP
